import Mathlib

/-!
Shallow embedding of the order-management service of `src/main.py`,
persisting into the SQLite schema declared in `src/init_db.py`.

The mutable database (tables `customers`, `items`, `orders`, `item_list`)
is a `DB` value.  Read-only endpoints are functions `DB → Except Err α`;
mutating endpoints are functions `DB → Except Err α × DB`, returning the
database as it stands when the response (or the raised `HTTPException`)
leaves the handler.  Since `main.py` commits after every single INSERT and
DELETE, every mutation performed before an exception is durable, which the
explicit state threading reflects: the `DB` paired with an `.error` result
is the state at the moment of the raise.

Python floats carrying prices are modelled as exact rationals; Python ints
(quantities may be negative) as `Int`; `datetime` values as a `Nat` clock
passed in by the caller (`DEFAULT CURRENT_TIMESTAMP` and `datetime.now()`
become the `now` parameter).  SQLite's `INTEGER PRIMARY KEY` rowid
assignment is modelled by per-table counters `nextCustomerId` /
`nextOrderId` (`cursor.lastrowid` is the counter value used for the
insert).
-/

/-- An `HTTPException(status_code, detail)` raised by a handler. -/
structure Err where
  status : Nat
  detail : String
  deriving DecidableEq, Repr

def MAXIMUM_NAME_LENGTH : Nat := 64

def REQUIRED_PHONE_LENGTH : Nat := 10

/-- Row of the `customers` table. -/
structure CustomerRow where
  id : Nat
  name : String
  phone : String
  deriving DecidableEq, Repr

/-- Row of the `items` table. -/
structure ItemRow where
  id : Nat
  name : String
  price : ℚ
  deriving DecidableEq, Repr

/-- Row of the `orders` table. -/
structure OrderRow where
  id : Nat
  timestamp : Nat
  cust_id : Nat
  notes : Option String
  deriving DecidableEq, Repr

/-- Row of the `item_list` table: one row per ordered unit. -/
structure LineRow where
  order_id : Nat
  item_id : Nat
  deriving DecidableEq, Repr

/-- The whole SQLite database plus the rowid counters. -/
structure DB where
  customers : List CustomerRow
  items : List ItemRow
  orders : List OrderRow
  item_list : List LineRow
  nextCustomerId : Nat
  nextOrderId : Nat
  deriving DecidableEq, Repr

/-- Pydantic model `Customer`. -/
structure Customer where
  id : Nat
  name : String
  phone : String
  deriving DecidableEq, Repr

/-- Pydantic model `CustomerCreate`. -/
structure CustomerCreate where
  name : String
  phone : String
  deriving DecidableEq, Repr

/-- Pydantic model `Item` (its validator rounds `price` to 2 decimals). -/
structure Item where
  id : Nat
  name : String
  price : ℚ
  deriving DecidableEq, Repr

/-- Pydantic model `ItemCreate` (no price validator). -/
structure ItemCreate where
  name : String
  price : ℚ
  deriving DecidableEq, Repr

/-- Pydantic model `ItemQuantity`: one request line. -/
structure ItemQuantity where
  name : String
  quantity : Int
  deriving DecidableEq, Repr

/-- Pydantic model `ItemQuantityTotalPrice`: one grouped, priced line. -/
structure ItemQuantityTotalPrice where
  name : String
  item_price : ℚ
  quantity : Int
  item_price_total : ℚ
  deriving DecidableEq, Repr

/-- Pydantic model `OrderCreate`: body of `POST /orders`. -/
structure OrderCreate where
  name : String
  phone : String
  items : List ItemQuantity
  notes : Option String
  deriving DecidableEq, Repr

/-- Pydantic model `OrderCreated`: response of `POST /orders`. -/
structure OrderCreated where
  id : Nat
  timestamp : Nat
  items : List ItemQuantityTotalPrice
  total : ℚ
  deriving DecidableEq, Repr

/-- Pydantic model `OrderReturned`: response of `GET /orders/{id}`. -/
structure OrderReturned where
  id : Nat
  timestamp : Nat
  name : String
  phone : String
  notes : Option String
  items : List ItemQuantityTotalPrice
  total : ℚ
  deriving DecidableEq, Repr

/-- Pydantic model `OrderUpdate`: body of `PUT /orders/{id}`. -/
structure OrderUpdate where
  items : Option (List ItemQuantity)
  notes : Option String
  deriving DecidableEq, Repr

/-- Python's `round` to an integer: round half to even. -/
def roundHalfEven (q : ℚ) : ℤ :=
  if Int.fract q < 1 / 2 then ⌊q⌋
  else if 1 / 2 < Int.fract q then ⌊q⌋ + 1
  else if ⌊q⌋ % 2 = 0 then ⌊q⌋ else ⌊q⌋ + 1

/-- Python's `round(v, 2)`. -/
def round2 (q : ℚ) : ℚ := (roundHalfEven (q * 100) : ℚ) / 100

/-- `format_price`: round a price to 2 decimal places. -/
def format_price (price : ℚ) : ℚ := round2 price

/-- `validate_customer_name_length`. -/
def validate_customer_name_length (name : String) : Bool :=
  if name.length > MAXIMUM_NAME_LENGTH then false else true

/-- `validate_customer_phone_length`. -/
def validate_customer_phone_length (phone : String) : Bool :=
  let phone_length := phone.length
  if phone_length < REQUIRED_PHONE_LENGTH || phone_length > REQUIRED_PHONE_LENGTH then false
  else true

/-- `format_phone_number`: keep the digits, lay them out `xxx-xxx-xxxx`
(Python slicing beyond the end, like `List.take`/`drop`, just truncates). -/
def format_phone_number (phone_number : String) : String :=
  let digits := phone_number.toList.filter Char.isDigit
  String.mk (digits.take 3) ++ "-" ++ String.mk ((digits.drop 3).take 3) ++ "-"
    ++ String.mk (digits.drop 6)

/-- `get_customer_service`: `SELECT name, phone FROM customers WHERE id = ?`,
404 when absent.  Read-only, so no `DB` is returned. -/
def get_customer_service (db : DB) (id : Nat) : Except Err CustomerCreate :=
  match db.customers.find? (fun c => c.id == id) with
  | none => .error ⟨404, s!"Customer ID {id} not found."⟩
  | some data => .ok ⟨data.name, data.phone⟩

/-- `get_item_service`: `SELECT name, price FROM items WHERE id = ?`.
Builds an `ItemCreate`, which has no rounding validator: the raw stored
price is returned. -/
def get_item_service (db : DB) (id : Nat) : Except Err ItemCreate :=
  match db.items.find? (fun it => it.id == id) with
  | none => .error ⟨404, s!"Item ID {id} not found."⟩
  | some data => .ok ⟨data.name, data.price⟩

/-- `get_item_given_name`: `SELECT id, price FROM items WHERE name = ?`.
Builds an `Item`, whose validator rounds the price to 2 decimals. -/
def get_item_given_name (db : DB) (item_name : String) : Except Err Item :=
  match db.items.find? (fun it => it.name == item_name) with
  | none => .error ⟨404, s!"Item {item_name} does not exist."⟩
  | some data => .ok ⟨data.id, item_name, round2 data.price⟩

/-- `create_customer_service`: validate, format the phone, INSERT, commit. -/
def create_customer_service (db : DB) (customer_create : CustomerCreate) :
    Except Err Customer × DB :=
  if !validate_customer_name_length customer_create.name then
    (.error ⟨400,
      s!"Customer Name is beyond the maximum allowed length of {MAXIMUM_NAME_LENGTH}."⟩, db)
  else if !validate_customer_phone_length customer_create.phone then
    (.error ⟨400, s!"Customer Phone is not of required length {REQUIRED_PHONE_LENGTH}."⟩, db)
  else
    let phone := format_phone_number customer_create.phone
    let last_id := db.nextCustomerId
    (.ok ⟨last_id, customer_create.name, phone⟩,
      { db with
        customers := db.customers ++ [⟨last_id, customer_create.name, phone⟩]
        nextCustomerId := last_id + 1 })

/-- `get_order_items`: `SELECT * FROM item_list WHERE order_id = ?`.
`fetchall` returns a list and is never `None`, so the 404 branch in the
Python body is dead code and the function cannot fail. -/
def get_order_items (db : DB) (id : Nat) : List LineRow :=
  db.item_list.filter (fun row => row.order_id == id)

/-- The `for row in item_list_data` loop of `get_order_service`: group the
per-unit rows into `items_map`, an insertion-ordered association list from
`item_id` to its `ItemQuantityTotalPrice`.  On a repeated id the entry's
quantity is bumped and its line total recomputed from the freshly fetched
current price. -/
def items_map_loop (db : DB) :
    List LineRow → List (Nat × ItemQuantityTotalPrice) →
      Except Err (List (Nat × ItemQuantityTotalPrice))
  | [], items_map => .ok items_map
  | row :: rest, items_map =>
    match get_item_service db row.item_id with
    | .error e => .error e
    | .ok item =>
      match items_map.find? (fun p => p.1 == row.item_id) with
      | some _ =>
        items_map_loop db rest (items_map.map (fun p =>
          if p.1 == row.item_id then
            (p.1, { p.2 with
                    quantity := p.2.quantity + 1
                    item_price_total := item.price * ((p.2.quantity + 1 : Int) : ℚ) })
          else p))
      | none =>
        items_map_loop db rest
          (items_map ++ [(row.item_id, ⟨item.name, item.price, 1, item.price⟩)])

/-- `get_order_service`: load the header, the owning customer and the
per-unit rows; group the rows and recompute every line total and the order
total from the current catalog prices. -/
def get_order_service (db : DB) (id : Nat) : Except Err OrderReturned :=
  match db.orders.find? (fun o => o.id == id) with
  | none => .error ⟨404, s!"Order ID {id} not found."⟩
  | some order_data =>
    match get_customer_service db order_data.cust_id with
    | .error e => .error e
    | .ok customer =>
      match items_map_loop db (get_order_items db id) [] with
      | .error e => .error e
      | .ok items_map =>
        let total : ℚ :=
          if items_map.length > 0 then
            (items_map.map (fun p => p.2.item_price_total)).sum
          else 0
        .ok ⟨id, order_data.timestamp, customer.name, customer.phone,
          order_data.notes, items_map.map (fun p => p.2), total⟩

/-- The `for item_ordered in items` loop of `create_order_items`, carrying
the accumulated summary list, the running total, and the database.  Each
per-unit INSERT is committed on the spot, so the rows inserted before an
`HTTPException` (unknown item name, zero quantity) stay in the database.
Python's `range(q)` for a negative `q` is empty, so a negative quantity
inserts no rows and raises nothing. -/
def create_order_items_loop (db : DB) (order_id : Nat) :
    List ItemQuantity → List ItemQuantityTotalPrice → ℚ →
      Except Err (List ItemQuantityTotalPrice × ℚ) × DB
  | [], items_list, total => (.ok (items_list, total), db)
  | item_ordered :: rest, items_list, total =>
    let item_name := item_ordered.name
    match get_item_given_name db item_name with
    | .error e => (.error e, db)
    | .ok item =>
      let item_price := item.price
      let item_quantity := item_ordered.quantity
      if item_quantity == 0 then
        (.error ⟨400, s!"Item quantity for {item_name} is 0."⟩, db)
      else
        let item_price_total := item_price * (item_quantity : ℚ)
        let db' : DB :=
          { db with
            item_list := db.item_list ++
              List.replicate item_quantity.toNat ⟨order_id, item.id⟩ }
        create_order_items_loop db' order_id rest
          (items_list ++ [⟨item_name, item_price, item_quantity, item_price_total⟩])
          (total + item_price_total)

/-- `create_order_items`: expand the request lines into committed per-unit
`item_list` rows and build the priced summary and total. -/
def create_order_items (db : DB) (order_id : Nat) (items : List ItemQuantity) :
    Except Err (List ItemQuantityTotalPrice × ℚ) × DB :=
  create_order_items_loop db order_id items [] 0

/-- `delete_order_items`: `DELETE FROM item_list WHERE order_id = ?`,
commit, then raise 500 when `cursor.rowcount` is 0 — so an order that
legitimately has zero rows in `item_list` makes this raise. -/
def delete_order_items (db : DB) (id : Nat) : Except Err Unit × DB :=
  let rowcount := db.item_list.countP (fun row => row.order_id == id)
  let db' : DB :=
    { db with item_list := db.item_list.filter (fun row => !(row.order_id == id)) }
  if rowcount == 0 then
    (.error ⟨500, s!"Failed to delete Order id {id} from item_list table."⟩, db')
  else (.ok (), db')

/-- `DELETE /orders/{id}`: delete the per-unit rows (propagating
`delete_order_items`' 500 on zero rows), then the header, with 404 when no
header row was removed. -/
def delete_order (db : DB) (id : Nat) : Except Err String × DB :=
  match delete_order_items db id with
  | (.error e, db') => (.error e, db')
  | (.ok _, db') =>
    let rowcount := db'.orders.countP (fun o => o.id == id)
    let db'' : DB := { db' with orders := db'.orders.filter (fun o => !(o.id == id)) }
    if rowcount == 0 then (.error ⟨404, s!"Order id {id} not found."⟩, db'')
    else (.ok s!"Successfully deleted Order ID {id}.", db'')

/-- Tail of `POST /orders` after the customer id has been resolved: INSERT
the header (committed immediately), re-read the order for its timestamp,
then expand and insert the lines. -/
def create_order_after_customer (db : DB) (order_create : OrderCreate) (now : Nat)
    (cust_id : Nat) : Except Err OrderCreated × DB :=
  let order_id := db.nextOrderId
  let db1 : DB :=
    { db with
      orders := db.orders ++ [⟨order_id, now, cust_id, order_create.notes⟩]
      nextOrderId := order_id + 1 }
  match get_order_service db1 order_id with
  | .error e => (.error e, db1)
  | .ok order =>
    match create_order_items db1 order_id order_create.items with
    | (.error e, db2) => (.error e, db2)
    | (.ok (items_list, total), db2) =>
      (.ok ⟨order_id, order.timestamp, items_list, total⟩, db2)

/-- `POST /orders`: look the customer up by the raw `(name, phone)` of the
request; insert a new customer when no row matches (note the lookup
compares the unformatted request phone against the stored, dash-formatted
one); then create the header and the lines. -/
def create_order (db : DB) (order_create : OrderCreate) (now : Nat) :
    Except Err OrderCreated × DB :=
  match db.customers.find?
      (fun c => c.name == order_create.name && c.phone == order_create.phone) with
  | none =>
    match create_customer_service db ⟨order_create.name, order_create.phone⟩ with
    | (.error e, db1) => (.error e, db1)
    | (.ok new_customer, db1) =>
      create_order_after_customer db1 order_create now new_customer.id
  | some data => create_order_after_customer db order_create now data.id

/-- Python truthiness of the optional `notes` field: present and non-empty. -/
def truthyNotes : Option String → Bool
  | none => false
  | some s => !(s == "")

/-- `items is not None and len(items) > 0`. -/
def itemsProvided : Option (List ItemQuantity) → Bool
  | none => false
  | some l => !(l.length == 0)

/-- Result of `PUT /orders/{id}`: either the early "nothing to update"
response or the freshly aggregated order. -/
inductive UpdateResult where
  | noop (detail : String)
  | updated (order : OrderReturned)
  deriving DecidableEq, Repr

/-- Notes branch of `update_order`: when `notes` is truthy, set `timestamp`
and `notes` on the matching header row, commit, and raise 500 when no row
matched. -/
def update_order_notes (db : DB) (id : Nat) (notes : Option String) (now : Nat) :
    Except Err Unit × DB :=
  if truthyNotes notes then
    let rowcount := db.orders.countP (fun o => o.id == id)
    let db1 : DB :=
      { db with
        orders := db.orders.map (fun o =>
          if o.id == id then { o with timestamp := now, notes := notes } else o) }
    if rowcount == 0 then
      (.error ⟨500, s!"Failed to update notes for Order ID {id}."⟩, db1)
    else (.ok (), db1)
  else (.ok (), db)

/-- The `for item in items: get_item_given_name(item.name)` validation loop
of `update_order`: pure reads, failing at the first unknown name. -/
def validate_update_items (db : DB) : List ItemQuantity → Except Err Unit
  | [] => .ok ()
  | item :: rest =>
    match get_item_given_name db item.name with
    | .error e => .error e
    | .ok _ => validate_update_items db rest

/-- Items branch of `update_order`: when a non-empty `items` payload is
present, validate every name, delete the old rows when any exist, re-insert
via `create_order_items`, and bump the header timestamp. -/
def update_order_items (db : DB) (id : Nat) (items : Option (List ItemQuantity))
    (now : Nat) : Except Err Unit × DB :=
  match items with
  | none => (.ok (), db)
  | some l =>
    if l.length > 0 then
      match validate_update_items db l with
      | .error e => (.error e, db)
      | .ok _ =>
        let item_list_data := db.item_list.filter (fun row => row.order_id == id)
        match (if item_list_data.length > 0 then delete_order_items db id
               else (.ok (), db)) with
        | (.error e, db1) => (.error e, db1)
        | (.ok _, db1) =>
          match create_order_items db1 id l with
          | (.error e, db2) => (.error e, db2)
          | (.ok _, db2) =>
            let rowcount := db2.orders.countP (fun o => o.id == id)
            let db3 : DB :=
              { db2 with
                orders := db2.orders.map (fun o =>
                  if o.id == id then { o with timestamp := now } else o) }
            if rowcount == 0 then
              (.error ⟨500, s!"Failed to update items in Order ID {id}."⟩, db3)
            else (.ok (), db3)
    else (.ok (), db)

/-- `PUT /orders/{id}`: early no-op when both fields are absent or empty;
otherwise check the order exists, run the notes branch, then the items
branch, and return the freshly aggregated order. -/
def update_order (db : DB) (id : Nat) (order_update : OrderUpdate) (now : Nat) :
    Except Err UpdateResult × DB :=
  let notes := order_update.notes
  let items := order_update.items
  if !truthyNotes notes && !itemsProvided items then
    (.ok (.noop s!"Nothing to update for Order ID {id}."), db)
  else
    match get_order_service db id with
    | .error e => (.error e, db)
    | .ok _ =>
      match update_order_notes db id notes now with
      | (.error e, db1) => (.error e, db1)
      | (.ok _, db1) =>
        match update_order_items db1 id items now with
        | (.error e, db2) => (.error e, db2)
        | (.ok _, db2) =>
          match get_order_service db2 id with
          | .error e => (.error e, db2)
          | .ok r => (.ok (.updated r), db2)

/-- Number of per-unit rows a list of `item_list` rows holds for item `k`. -/
def countItem (rows : List LineRow) (k : Nat) : Nat :=
  rows.countP (fun row => row.item_id == k)

/-- Entry of an insertion-ordered association list at key `k`. -/
def keyLookup (m : List (Nat × ItemQuantityTotalPrice)) (k : Nat) :
    Option ItemQuantityTotalPrice :=
  (m.find? (fun p => p.1 == k)).map Prod.snd

/-- One catalog customer and one catalog item (`Widget` at 2.50), no orders:
the starting state of the concrete runs below. -/
def dbWidget : DB :=
  { customers := [⟨1, "Alice", "123-456-7890"⟩]
    items := [⟨1, "Widget", 5 / 2⟩]
    orders := []
    item_list := []
    nextCustomerId := 2
    nextOrderId := 1 }

/-- An empty database: the starting state of the duplicate-customer run. -/
def dbEmpty : DB :=
  { customers := [], items := [], orders := [], item_list := []
    nextCustomerId := 1, nextOrderId := 1 }

/-- The request repeated in the duplicate-customer run: a raw 10-digit
phone and no order lines. -/
def reqAlice : OrderCreate := ⟨"Alice", "1234567890", [], none⟩

/-- A stored order (id 1) owned by customer 1 with a single `Widget` unit:
the starting state of the failed-update runs. -/
def dbOneLine : DB :=
  { customers := [⟨1, "Alice", "123-456-7890"⟩]
    items := [⟨1, "Widget", 5 / 2⟩]
    orders := [⟨1, 5, 1, none⟩]
    item_list := [⟨1, 1⟩]
    nextCustomerId := 2
    nextOrderId := 2 }

/-- A stored order (id 1) that legitimately has zero `item_list` rows. -/
def dbZeroLine : DB :=
  { customers := [⟨1, "Alice", "123-456-7890"⟩]
    items := []
    orders := [⟨1, 5, 1, none⟩]
    item_list := []
    nextCustomerId := 2
    nextOrderId := 2 }

/-- Claim C1 (code bug): a create request whose second line names the
unknown item `Gadget` does fail with 404 for that item, but it does NOT
roll back: the committed order header row and the `item_list` row of the
earlier valid `Widget` line are left behind, because `main.py` commits the
header and each unit row individually before the unknown name is
discovered. -/
theorem C1_create_order_partial_commit :
    create_order dbWidget ⟨"Alice", "123-456-7890", [⟨"Widget", 1⟩, ⟨"Gadget", 1⟩], none⟩ 5 =
      (.error ⟨404, "Item Gadget does not exist."⟩,
        { dbWidget with
          orders := [⟨1, 5, 1, none⟩]
          item_list := [⟨1, 1⟩]
          nextOrderId := 2 }) := rfl

/-- Claim C3 (code bug): deleting the existing order 1, which legitimately
has zero `item_list` rows, fails with a 500 from `delete_order_items`
(`rowcount == 0`) and leaves the header row in place, instead of
succeeding; and after a successful delete of an order that had a line, a
second delete of the same id also fails with that 500, not with the 404
NotFound the claim requires. -/
theorem C3_delete_zero_line_order_fails :
    delete_order dbZeroLine 1 =
      (.error ⟨500, "Failed to delete Order id 1 from item_list table."⟩, dbZeroLine) ∧
    delete_order dbOneLine 1 =
      (.ok "Successfully deleted Order ID 1.",
        { dbOneLine with orders := [], item_list := [] }) ∧
    delete_order { dbOneLine with orders := [], item_list := [] } 1 =
      (.error ⟨500, "Failed to delete Order id 1 from item_list table."⟩,
        { dbOneLine with orders := [], item_list := [] }) := ⟨rfl, rfl, rfl⟩

/-- Claim C4 (code bug): a create whose only line has quantity 0 does get
the 400 validation error, but the already committed order header row stays
in the database; and a negative quantity is not rejected at all — the
create succeeds, inserting zero unit rows and reporting a negative total. -/
theorem C4_create_zero_quantity_leaves_header :
    create_order dbWidget ⟨"Alice", "123-456-7890", [⟨"Widget", 0⟩], none⟩ 5 =
      (.error ⟨400, "Item quantity for Widget is 0."⟩,
        { dbWidget with orders := [⟨1, 5, 1, none⟩], nextOrderId := 2 }) ∧
    create_order dbWidget ⟨"Alice", "123-456-7890", [⟨"Widget", -1⟩], none⟩ 5 =
      (.ok ⟨1, 5, [⟨"Widget", 5 / 2, -1, -(5 / 2)⟩], -(5 / 2)⟩,
        { dbWidget with orders := [⟨1, 5, 1, none⟩], nextOrderId := 2 }) := by
  refine ⟨rfl, ?_⟩
  norm_num [create_order, create_order_after_customer, create_order_items,
    create_order_items_loop, get_item_given_name, get_order_service,
    get_customer_service, get_item_service, get_order_items, items_map_loop,
    round2, roundHalfEven, dbWidget, List.find?, List.filter, List.replicate]

/-- Claim C8: creating an order of 3 `Widget` units at catalog price 2.50
returns total 7.50 with the single grouped line, and an immediate read of
the order returns the same grouped line and the same total. -/
theorem C8_round_trip :
    create_order dbWidget ⟨"Alice", "123-456-7890", [⟨"Widget", 3⟩], none⟩ 5 =
      (.ok ⟨1, 5, [⟨"Widget", 5 / 2, 3, 15 / 2⟩], 15 / 2⟩,
        { dbWidget with
          orders := [⟨1, 5, 1, none⟩]
          item_list := [⟨1, 1⟩, ⟨1, 1⟩, ⟨1, 1⟩]
          nextOrderId := 2 }) ∧
    get_order_service
        (create_order dbWidget ⟨"Alice", "123-456-7890", [⟨"Widget", 3⟩], none⟩ 5).2 1 =
      .ok ⟨1, 5, "Alice", "123-456-7890", none, [⟨"Widget", 5 / 2, 3, 15 / 2⟩], 15 / 2⟩ := by
  constructor <;>
  norm_num [create_order, create_order_after_customer, create_order_items,
    create_order_items_loop, get_item_given_name, get_order_service,
    get_customer_service, get_item_service, get_order_items, items_map_loop,
    round2, roundHalfEven, dbWidget, List.find?, List.filter, List.replicate]

/-- Claim C2, counterexample: updating order 1 (which holds one `Widget`
unit) with the single line `{Widget, quantity 0}` fails validation only
inside `create_order_items`, after `delete_order_items` has already run:
the failed update returns 400 but the order's previous `item_list` row is
gone, so the failure is NOT detected before mutation and the previous
lines are NOT left intact. -/
theorem C2_zero_quantity_update_mutates :
    update_order dbOneLine 1 ⟨some [⟨"Widget", 0⟩], none⟩ 7 =
      (.error ⟨400, "Item quantity for Widget is 0."⟩,
        { dbOneLine with item_list := [] }) ∧
    dbOneLine.item_list = [⟨1, 1⟩] := ⟨rfl, rfl⟩

/-- Claim C5, counterexample: two successive creates with the identical
valid `(name, phone)` request (`Alice`, raw 10-digit `1234567890`) insert
TWO customer rows and the two orders reference different customers: the
first create stores the phone dash-formatted (`123-456-7890`) while the
dedup lookup compares the raw request phone, so it never matches. -/
theorem C5_duplicate_customer_on_repeat_create :
    (create_order (create_order dbEmpty reqAlice 10).2 reqAlice 20).2.customers =
      [⟨1, "Alice", "123-456-7890"⟩, ⟨2, "Alice", "123-456-7890"⟩] ∧
    (create_order (create_order dbEmpty reqAlice 10).2 reqAlice 20).2.orders =
      [⟨1, 10, 1, none⟩, ⟨2, 20, 2, none⟩] := ⟨rfl, rfl⟩

/-- The line-insertion loop touches only `item_list`: every other table and
both rowid counters come out unchanged, whether it succeeds or raises. -/
theorem create_order_items_loop_frame :
    ∀ (l : List ItemQuantity) (db : DB) (oid : Nat)
      (acc : List ItemQuantityTotalPrice) (t : ℚ),
      ((create_order_items_loop db oid l acc t).2).customers = db.customers ∧
      ((create_order_items_loop db oid l acc t).2).items = db.items ∧
      ((create_order_items_loop db oid l acc t).2).orders = db.orders ∧
      ((create_order_items_loop db oid l acc t).2).nextCustomerId = db.nextCustomerId ∧
      ((create_order_items_loop db oid l acc t).2).nextOrderId = db.nextOrderId := by
  intro l
  induction l with
  | nil => intro db oid acc t; simp [create_order_items_loop]
  | cons it rest ih =>
    intro db oid acc t
    simp only [create_order_items_loop]
    cases h : get_item_given_name db it.name with
    | error e => simp
    | ok item =>
      by_cases hq : it.quantity == 0
      · simp [hq]
      · simp only [hq, Bool.false_eq_true, if_false, if_neg]
        exact ih _ oid _ _

/-- Claim C5, amended part: when a stored customer row matches the raw
request pair `(name, phone)` exactly, `create_order` inserts no customer
row — the customers table is unchanged — and the one order header it
appends carries that customer's id.  (The unamended claim fails because a
service-created customer stores a formatted phone, see the
counterexample.) -/
theorem C5_exact_match_reuses_customer (db : DB) (oc : OrderCreate) (now : Nat)
    (c : CustomerRow)
    (hc : db.customers.find? (fun x => x.name == oc.name && x.phone == oc.phone) = some c) :
    (create_order db oc now).2.customers = db.customers ∧
    (create_order db oc now).2.orders =
      db.orders ++ [⟨db.nextOrderId, now, c.id, oc.notes⟩] := by
  simp only [create_order, hc]
  simp only [create_order_after_customer]
  cases hg : get_order_service
      { db with
        orders := db.orders ++ [⟨db.nextOrderId, now, c.id, oc.notes⟩]
        nextOrderId := db.nextOrderId + 1 } db.nextOrderId with
  | error e => simp
  | ok order =>
    simp only [create_order_items]
    obtain ⟨h1, h2, h3, h4, h5⟩ := create_order_items_loop_frame oc.items
      { db with
        orders := db.orders ++ [⟨db.nextOrderId, now, c.id, oc.notes⟩]
        nextOrderId := db.nextOrderId + 1 } db.nextOrderId [] 0
    cases hi : create_order_items_loop
        { db with
          orders := db.orders ++ [⟨db.nextOrderId, now, c.id, oc.notes⟩]
          nextOrderId := db.nextOrderId + 1 } db.nextOrderId oc.items [] 0 with
    | mk res db2 =>
      rw [hi] at h1 h3
      cases res with
      | error e => simpa using ⟨h1, h3⟩
      | ok pr => cases pr with
        | mk items_list total => simpa using ⟨h1, h3⟩

/-- When some requested line's name is missing from the `items` table, the
pre-deletion validation loop of `update_order` raises (at the first such
line), before anything is mutated. -/
theorem validate_update_items_error (db : DB) :
    ∀ l : List ItemQuantity,
      (∃ it ∈ l, db.items.find? (fun x => x.name == it.name) = none) →
      ∃ e, validate_update_items db l = .error e := by
  intro l
  induction l with
  | nil => rintro ⟨it, hm, h⟩; exact absurd hm (List.not_mem_nil it)
  | cons it rest ih =>
    rintro ⟨it0, hm, h0⟩
    cases h : get_item_given_name db it.name with
    | error e => exact ⟨e, by simp [validate_update_items, h]⟩
    | ok item =>
      rcases List.mem_cons.mp hm with rfl | hm0
      · rw [get_item_given_name, h0] at h
        exact Except.noConfusion h
      · obtain ⟨e, he⟩ := ih ⟨it0, hm0, h0⟩
        exact ⟨e, by simp [validate_update_items, h, he]⟩

/-- The notes branch of `update_order` succeeds whenever the order's header
row exists, and it touches only the `orders` table. -/
theorem update_order_notes_spec (db : DB) (id : Nat) (notes : Option String) (now : Nat)
    (h : db.orders.countP (fun o => o.id == id) ≠ 0) :
    ∃ db1, update_order_notes db id notes now = (.ok (), db1) ∧
      db1.customers = db.customers ∧ db1.items = db.items ∧
      db1.item_list = db.item_list := by
  by_cases ht : truthyNotes notes
  · exact ⟨{ db with
        orders := db.orders.map (fun o =>
          if o.id == id then { o with timestamp := now, notes := notes } else o) },
      by simp [update_order_notes, ht, h], rfl, rfl, rfl⟩
  · exact ⟨db, by simp [update_order_notes, ht], rfl, rfl, rfl⟩

/-- Claim C2, amended part: an update whose non-empty `items` payload names
an unknown item fails, and — because the name-validation loop runs before
`delete_order_items` — the order's previous `item_list` rows are fully
intact afterwards (whether or not a notes value was also supplied, and
whether or not the order exists).  The unamended claim fails for invalid
quantities, see the counterexample. -/
theorem C2_unknown_name_update_preserves_lines (db : DB) (id : Nat)
    (l : List ItemQuantity) (notes : Option String) (now : Nat)
    (hl : l ≠ [])
    (hbad : ∃ it ∈ l, db.items.find? (fun x => x.name == it.name) = none) :
    ∃ e db', update_order db id ⟨some l, notes⟩ now = (.error e, db') ∧
      db'.item_list = db.item_list := by
  have hip : itemsProvided (some l) = true := by
    cases l with
    | nil => exact absurd rfl hl
    | cons a as => simp [itemsProvided]
  have hlen : 0 < l.length := by
    cases l with
    | nil => exact absurd rfl hl
    | cons a as => simp
  simp only [update_order, hip, Bool.not_true, Bool.and_false, Bool.false_eq_true,
    if_false]
  cases hg : get_order_service db id with
  | error e => exact ⟨e, db, rfl, rfl⟩
  | ok r =>
    have hcount : db.orders.countP (fun o => o.id == id) ≠ 0 := by
      rw [get_order_service] at hg
      cases ho : db.orders.find? (fun x => x.id == id) with
      | none => rw [ho] at hg; exact Except.noConfusion hg
      | some orow =>
        have hmem := List.mem_of_find?_eq_some ho
        have hpred := List.find?_some ho
        have : 0 < db.orders.countP (fun o => o.id == id) :=
          List.countP_pos_iff.mpr ⟨orow, hmem, hpred⟩
        omega
    obtain ⟨db1, hn, hc1, hi1, hil1⟩ := update_order_notes_spec db id notes now hcount
    rw [hn]
    obtain ⟨e, he⟩ := validate_update_items_error db1 l (by rw [hi1]; exact hbad)
    refine ⟨e, db1, ?_, hil1⟩
    simp [update_order_items, hlen, he]

/-- `UPDATE orders ... WHERE id = ?` rewrites the matching rows in place;
looking the id up afterwards finds the rewritten row, for any per-row
rewrite that leaves `id` untouched. -/
theorem find?_map_update_orders (l : List OrderRow) (id : Nat) (f : OrderRow → OrderRow)
    (hf : ∀ o, (f o).id = o.id) :
    (l.map (fun o => if o.id == id then f o else o)).find? (fun x => x.id == id) =
      (l.find? (fun x => x.id == id)).map f := by
  induction l with
  | nil => rfl
  | cons o rest ih =>
    simp only [List.map_cons]
    by_cases h : (o.id == id) = true
    · have e1 : ((f o).id == id) = true := by rw [hf o]; exact h
      rw [if_pos h]
      simp only [List.find?_cons, e1, h]
      rfl
    · have h' : (o.id == id) = false := by simpa using h
      rw [if_neg h]
      simp only [List.find?_cons, h']
      exact ih

/-- The grouping loop reads the database only through the `items` table. -/
theorem items_map_loop_congr (db db' : DB) (h : db'.items = db.items) :
    ∀ (rows : List LineRow) (m : List (Nat × ItemQuantityTotalPrice)),
      items_map_loop db' rows m = items_map_loop db rows m := by
  intro rows
  induction rows with
  | nil => intro m; rfl
  | cons row rest ih =>
    intro m
    have hg : get_item_service db' row.item_id = get_item_service db row.item_id := by
      rw [get_item_service, get_item_service, h]
    simp only [items_map_loop, hg]
    cases get_item_service db row.item_id with
    | error e => rfl
    | ok item =>
      cases m.find? (fun p => p.1 == row.item_id) with
      | none => exact ih _
      | some _ => exact ih _

/-- Claim C9: a notes-only update of an existing order stores the new notes
and sets the header timestamp to now, while the `item_list` rows (visible:
only `orders` changes in the final database) and the freshly aggregated
items and total are exactly those `get` returned before the update. -/
theorem C9_notes_only_update (db : DB) (id : Nat) (s : String) (now : Nat)
    (r : OrderReturned)
    (hr : get_order_service db id = .ok r) (hs : s ≠ "") :
    update_order db id ⟨none, some s⟩ now =
      (.ok (.updated ⟨id, now, r.name, r.phone, some s, r.items, r.total⟩),
       { db with orders := db.orders.map (fun o =>
           if o.id == id then { o with timestamp := now, notes := some s } else o) }) := by
  have ht : truthyNotes (some s) = true := by simp [truthyNotes, hs]
  rw [get_order_service] at hr
  split at hr
  · exact Except.noConfusion hr
  rename_i orow ho
  split at hr
  · exact Except.noConfusion hr
  rename_i customer hcust
  split at hr
  · exact Except.noConfusion hr
  rename_i m hloop
  injection hr with hr0
  subst hr0
  have hcount : db.orders.countP (fun o => o.id == id) ≠ 0 := by
    have hmem := List.mem_of_find?_eq_some ho
    have hpred := List.find?_some ho
    have : 0 < db.orders.countP (fun o => o.id == id) :=
      List.countP_pos_iff.mpr ⟨orow, hmem, hpred⟩
    omega
  have hnotes : update_order_notes db id (some s) now =
      (.ok (), { db with orders := db.orders.map (fun o =>
        if o.id == id then { o with timestamp := now, notes := some s } else o) }) := by
    simp [update_order_notes, ht, hcount]
  have hfind1 : ({ db with orders := db.orders.map (fun o =>
      if o.id == id then { o with timestamp := now, notes := some s } else o) } : DB).orders.find?
        (fun x => x.id == id) =
      some { orow with timestamp := now, notes := some s } := by
    show (db.orders.map (fun o =>
      if o.id == id then { o with timestamp := now, notes := some s } else o)).find?
        (fun x => x.id == id) = _
    rw [find?_map_update_orders db.orders id
      (fun o => { o with timestamp := now, notes := some s }) (fun o => rfl), ho]
    rfl
  have hloop1 : items_map_loop
      { db with orders := db.orders.map (fun o =>
        if o.id == id then { o with timestamp := now, notes := some s } else o) }
      (get_order_items
        { db with orders := db.orders.map (fun o =>
          if o.id == id then { o with timestamp := now, notes := some s } else o) } id) [] =
      .ok m := by
    rw [items_map_loop_congr db
      { db with orders := db.orders.map (fun o =>
        if o.id == id then { o with timestamp := now, notes := some s } else o) } rfl]
    exact hloop
  have hcust1 : get_customer_service
      { db with orders := db.orders.map (fun o =>
        if o.id == id then { o with timestamp := now, notes := some s } else o) }
      orow.cust_id = .ok customer := hcust
  have hget1 : get_order_service
      { db with orders := db.orders.map (fun o =>
        if o.id == id then { o with timestamp := now, notes := some s } else o) } id =
      .ok ⟨id, now, customer.name, customer.phone, some s, m.map (fun p => p.2),
        if m.length > 0 then (m.map (fun p => p.2.item_price_total)).sum else 0⟩ := by
    simp only [get_order_service, hfind1, hcust1, hloop1]
  have hget0 : get_order_service db id =
      .ok ⟨id, orow.timestamp, customer.name, customer.phone, orow.notes,
        m.map (fun p => p.2),
        if m.length > 0 then (m.map (fun p => p.2.item_price_total)).sum else 0⟩ := by
    simp only [get_order_service, ho, hcust, hloop]
  simp only [update_order, ht, Bool.not_true, Bool.false_and, Bool.false_eq_true,
    if_false, hget0, hnotes, update_order_items, hget1]

/-- Tail of `create_order` for an empty line list: when the new header id is
fresh for `orders` and `item_list` and the resolved customer id exists, the
header is inserted and the response is the empty summary with total 0. -/
theorem create_order_after_customer_empty (db : DB) (oc : OrderCreate)
    (now cust_id : Nat)
    (hitems : oc.items = [])
    (horder : ∀ o ∈ db.orders, o.id ≠ db.nextOrderId)
    (hlines : ∀ lrow ∈ db.item_list, lrow.order_id ≠ db.nextOrderId)
    (hcust : ∃ cr, db.customers.find? (fun c => c.id == cust_id) = some cr) :
    create_order_after_customer db oc now cust_id =
      (.ok ⟨db.nextOrderId, now, [], 0⟩,
       { db with
         orders := db.orders ++ [⟨db.nextOrderId, now, cust_id, oc.notes⟩]
         nextOrderId := db.nextOrderId + 1 }) := by
  obtain ⟨cr, hcr⟩ := hcust
  have hnone : db.orders.find? (fun x => x.id == db.nextOrderId) = none := by
    rw [List.find?_eq_none]
    intro o ho
    simpa using horder o ho
  have hfind : ({ db with
      orders := db.orders ++ [⟨db.nextOrderId, now, cust_id, oc.notes⟩]
      nextOrderId := db.nextOrderId + 1 } : DB).orders.find?
        (fun x => x.id == db.nextOrderId) =
      some ⟨db.nextOrderId, now, cust_id, oc.notes⟩ := by
    show (db.orders ++ [(⟨db.nextOrderId, now, cust_id, oc.notes⟩ : OrderRow)]).find?
        (fun x => x.id == db.nextOrderId) =
      some ⟨db.nextOrderId, now, cust_id, oc.notes⟩
    rw [List.find?_append, hnone]
    simp
  have hrows : get_order_items
      { db with
        orders := db.orders ++ [⟨db.nextOrderId, now, cust_id, oc.notes⟩]
        nextOrderId := db.nextOrderId + 1 } db.nextOrderId = [] := by
    show db.item_list.filter (fun row => row.order_id == db.nextOrderId) = []
    rw [List.filter_eq_nil_iff]
    intro lrow hlrow
    simpa using hlines lrow hlrow
  have hcust1 : get_customer_service
      { db with
        orders := db.orders ++ [⟨db.nextOrderId, now, cust_id, oc.notes⟩]
        nextOrderId := db.nextOrderId + 1 } cust_id = .ok ⟨cr.name, cr.phone⟩ := by
    have e : get_customer_service
        { db with
          orders := db.orders ++ [⟨db.nextOrderId, now, cust_id, oc.notes⟩]
          nextOrderId := db.nextOrderId + 1 } cust_id =
        get_customer_service db cust_id := rfl
    rw [e, get_customer_service, hcr]
  have hget : get_order_service
      { db with
        orders := db.orders ++ [⟨db.nextOrderId, now, cust_id, oc.notes⟩]
        nextOrderId := db.nextOrderId + 1 } db.nextOrderId =
      .ok ⟨db.nextOrderId, now, cr.name, cr.phone, oc.notes, [], 0⟩ := by
    simp only [get_order_service, hfind, hcust1, hrows, items_map_loop]
    simp
  simp only [create_order_after_customer, hget, create_order_items, hitems,
    create_order_items_loop]

/-- Claim C10: with a valid customer name and phone and fresh rowids, a
create whose items list is empty succeeds with no validation error: one
header row is appended, `item_list` is untouched, and the response carries
the empty line summary and total 0. -/
theorem C10_empty_items_create (db : DB) (name phone : String)
    (notes : Option String) (now : Nat)
    (hname : validate_customer_name_length name = true)
    (hphone : validate_customer_phone_length phone = true)
    (horder : ∀ o ∈ db.orders, o.id ≠ db.nextOrderId)
    (hlines : ∀ lrow ∈ db.item_list, lrow.order_id ≠ db.nextOrderId)
    (hcfresh : ∀ c ∈ db.customers, c.id ≠ db.nextCustomerId) :
    ∃ cust_id,
      (create_order db ⟨name, phone, [], notes⟩ now).1 = .ok ⟨db.nextOrderId, now, [], 0⟩ ∧
      (create_order db ⟨name, phone, [], notes⟩ now).2.orders =
        db.orders ++ [⟨db.nextOrderId, now, cust_id, notes⟩] ∧
      (create_order db ⟨name, phone, [], notes⟩ now).2.item_list = db.item_list := by
  cases hfound : db.customers.find? (fun c => c.name == name && c.phone == phone) with
  | some c =>
    have hmem := List.mem_of_find?_eq_some hfound
    have hcust : ∃ cr, db.customers.find? (fun x => x.id == c.id) = some cr := by
      have : (db.customers.find? (fun x => x.id == c.id)).isSome := by
        rw [List.find?_isSome]
        exact ⟨c, hmem, by simp⟩
      exact Option.isSome_iff_exists.mp this
    refine ⟨c.id, ?_⟩
    have hafter := create_order_after_customer_empty db ⟨name, phone, [], notes⟩ now c.id
      rfl horder hlines hcust
    simp only [create_order, hfound, hafter]
    exact ⟨trivial, trivial, trivial⟩
  | none =>
    refine ⟨db.nextCustomerId, ?_⟩
    have hcc : create_customer_service db ⟨name, phone⟩ =
        (.ok ⟨db.nextCustomerId, name, format_phone_number phone⟩,
         { db with
           customers := db.customers ++
             [⟨db.nextCustomerId, name, format_phone_number phone⟩]
           nextCustomerId := db.nextCustomerId + 1 }) := by
      simp [create_customer_service, hname, hphone]
    have hcust : ∃ cr, (({ db with
        customers := db.customers ++
          [⟨db.nextCustomerId, name, format_phone_number phone⟩]
        nextCustomerId := db.nextCustomerId + 1 } : DB)).customers.find?
          (fun x => x.id == db.nextCustomerId) = some cr := by
      refine ⟨⟨db.nextCustomerId, name, format_phone_number phone⟩, ?_⟩
      show (db.customers ++ [(⟨db.nextCustomerId, name, format_phone_number phone⟩ :
          CustomerRow)]).find? (fun x => x.id == db.nextCustomerId) = _
      have hnone : db.customers.find? (fun x => x.id == db.nextCustomerId) = none := by
        rw [List.find?_eq_none]
        intro c hc
        simpa using hcfresh c hc
      rw [List.find?_append, hnone]
      simp
    have hafter := create_order_after_customer_empty
      { db with
        customers := db.customers ++
          [⟨db.nextCustomerId, name, format_phone_number phone⟩]
        nextCustomerId := db.nextCustomerId + 1 }
      ⟨name, phone, [], notes⟩ now db.nextCustomerId rfl horder hlines hcust
    simp only [create_order, hfound, hcc, hafter]
    exact ⟨trivial, trivial, trivial⟩

/-- Updating the entry at one key in place preserves the key sequence. -/
theorem map_fst_update (m : List (Nat × ItemQuantityTotalPrice)) (k0 : Nat)
    (g : (Nat × ItemQuantityTotalPrice) → ItemQuantityTotalPrice) :
    ((m.map (fun p => if p.1 == k0 then (p.1, g p) else p)).map Prod.fst) =
      m.map Prod.fst := by
  induction m with
  | nil => rfl
  | cons p rest ih =>
    by_cases h : (p.1 == k0) = true
    · simp only [List.map_cons, h, if_true, ih]
    · simp only [List.map_cons, h, Bool.false_eq_true, if_false, ih]

/-- In-place update at key `k0`: the lookup at `k0` afterwards sees `g`
applied to the previously found pair. -/
theorem keyLookup_update_self (m : List (Nat × ItemQuantityTotalPrice)) (k0 : Nat)
    (g : (Nat × ItemQuantityTotalPrice) → ItemQuantityTotalPrice) :
    keyLookup (m.map (fun p => if p.1 == k0 then (p.1, g p) else p)) k0 =
      (m.find? (fun p => p.1 == k0)).map (fun p => g p) := by
  induction m with
  | nil => rfl
  | cons p rest ih =>
    by_cases h : (p.1 == k0) = true
    · simp only [keyLookup, List.map_cons, h, if_true, List.find?_cons]
      rfl
    · simp only [keyLookup, List.map_cons, h, Bool.false_eq_true, if_false,
        List.find?_cons]
      exact ih

/-- In-place update at key `k0` does not change the lookup at other keys. -/
theorem keyLookup_update_other (m : List (Nat × ItemQuantityTotalPrice)) (k0 k : Nat)
    (hk : k ≠ k0)
    (g : (Nat × ItemQuantityTotalPrice) → ItemQuantityTotalPrice) :
    keyLookup (m.map (fun p => if p.1 == k0 then (p.1, g p) else p)) k =
      keyLookup m k := by
  induction m with
  | nil => rfl
  | cons p rest ih =>
    by_cases h : (p.1 == k0) = true
    · have hp : p.1 = k0 := by simpa using h
      have hpk : (p.1 == k) = false := beq_false_of_ne (by rw [hp]; exact Ne.symm hk)
      simp only [keyLookup, List.map_cons, h, if_true, List.find?_cons, hpk]
      exact ih
    · by_cases hpk : (p.1 == k) = true
      · simp only [keyLookup, List.map_cons, h, Bool.false_eq_true, if_false,
          List.find?_cons, hpk]
      · simp only [keyLookup, List.map_cons, h, Bool.false_eq_true, if_false,
          List.find?_cons, hpk]
        exact ih

/-- Appending a fresh key: the lookup at that key sees the new entry. -/
theorem keyLookup_append_self (m : List (Nat × ItemQuantityTotalPrice)) (k0 : Nat)
    (e : ItemQuantityTotalPrice)
    (hnone : m.find? (fun p => p.1 == k0) = none) :
    keyLookup (m ++ [(k0, e)]) k0 = some e := by
  rw [keyLookup, List.find?_append, hnone]
  simp

/-- Appending an entry for key `k0` does not change lookups at other keys. -/
theorem keyLookup_append_other (m : List (Nat × ItemQuantityTotalPrice)) (k0 k : Nat)
    (hk : k ≠ k0) (e : ItemQuantityTotalPrice) :
    keyLookup (m ++ [(k0, e)]) k = keyLookup m k := by
  rw [keyLookup, List.find?_append]
  cases h : m.find? (fun p => p.1 == k) with
  | some p => simp [keyLookup, h]
  | none =>
    have hk0 : ((k0, e).1 == k) = false := beq_false_of_ne (Ne.symm hk)
    simp [keyLookup, h, List.find?_cons, hk0]

/-- A key is present in the accumulator exactly when its lookup succeeds. -/
theorem mem_map_fst_iff_keyLookup (m : List (Nat × ItemQuantityTotalPrice)) (k : Nat) :
    k ∈ m.map Prod.fst ↔ (keyLookup m k).isSome := by
  rw [keyLookup]
  induction m with
  | nil => simp
  | cons p rest ih =>
    by_cases h : (p.1 == k) = true
    · have hp : p.1 = k := by simpa using h
      simp [List.find?_cons, h, hp]
    · have hp : ¬p.1 = k := by simpa using h
      have hp2 : ¬k = p.1 := fun hh => hp hh.symm
      simp [List.find?_cons, h, hp, hp2, ih]

/-- Master invariant of the read-path grouping loop: starting from an
accumulator with distinct keys, a successful run keeps the keys distinct,
its keys become the old keys plus every item id occurring in the processed
rows, ids absent from the catalog keep their old entry, and the entry of a
catalog id ends with its quantity increased by the number of its rows and,
when any of its rows was processed, a line total recomputed as the catalog
price times the final quantity. -/
theorem items_map_loop_spec (db : DB) :
    ∀ (rows : List LineRow) (m m' : List (Nat × ItemQuantityTotalPrice)),
      items_map_loop db rows m = .ok m' →
      (m.map Prod.fst).Nodup →
      ((m'.map Prod.fst).Nodup
        ∧ (∀ k, k ∈ m'.map Prod.fst ↔ (k ∈ m.map Prod.fst ∨ 0 < countItem rows k))
        ∧ (∀ k, db.items.find? (fun x => x.id == k) = none →
            keyLookup m' k = keyLookup m k)
        ∧ (∀ k it, db.items.find? (fun x => x.id == k) = some it →
            keyLookup m' k =
              (match keyLookup m k with
               | some e =>
                 some ⟨e.name, e.item_price, e.quantity + (countItem rows k : Int),
                   if countItem rows k = 0 then e.item_price_total
                   else it.price * (((e.quantity + (countItem rows k : Int)) : Int) : ℚ)⟩
               | none =>
                 if countItem rows k = 0 then none
                 else some ⟨it.name, it.price, (countItem rows k : Int),
                   it.price * (((countItem rows k : Int)) : ℚ)⟩))) := by
  intro rows
  induction rows with
  | nil =>
    intro m m' h hnodup
    simp only [items_map_loop] at h
    injection h with h0
    subst h0
    refine ⟨hnodup, ?_, ?_, ?_⟩
    · intro k; simp [countItem]
    · intro k _; rfl
    · intro k it _
      cases hm : keyLookup m k with
      | none => simp [countItem]
      | some e => simp [countItem]
  | cons row rest ih =>
    intro m m' h hnodup
    simp only [items_map_loop] at h
    split at h
    · exact Except.noConfusion h
    rename_i item hitem
    have hidfind : ∃ d, db.items.find? (fun x => x.id == row.item_id) = some d := by
      rw [get_item_service] at hitem
      cases hd : db.items.find? (fun x => x.id == row.item_id) with
      | none => rw [hd] at hitem; exact Except.noConfusion hitem
      | some d => exact ⟨d, rfl⟩
    obtain ⟨d, hd⟩ := hidfind
    have hitem' := hitem
    rw [get_item_service, hd] at hitem'
    injection hitem' with hI
    have hnamed : item.name = d.name := by rw [← hI]
    have hpriced : item.price = d.price := by rw [← hI]
    have hcc : countItem (row :: rest) row.item_id = countItem rest row.item_id + 1 := by
      simp [countItem, List.countP_cons]
    split at h
    -- a row of an id already in the accumulator: in-place bump
    · rename_i x hfound
      have hnodup1 : (((m.map (fun p => if p.1 == row.item_id then
          (p.1, { p.2 with
                  quantity := p.2.quantity + 1
                  item_price_total := item.price * ((p.2.quantity + 1 : Int) : ℚ) })
          else p))).map Prod.fst).Nodup := by
        rw [map_fst_update]; exact hnodup
      obtain ⟨ih1, ih2, ih3, ih4⟩ := ih _ m' h hnodup1
      have hk0mem : row.item_id ∈ m.map Prod.fst := by
        rw [mem_map_fst_iff_keyLookup, keyLookup, hfound]
        rfl
      have hupd : keyLookup (m.map (fun p => if p.1 == row.item_id then
          (p.1, { p.2 with
                  quantity := p.2.quantity + 1
                  item_price_total := item.price * ((p.2.quantity + 1 : Int) : ℚ) })
          else p)) row.item_id =
          some { x.2 with
                 quantity := x.2.quantity + 1
                 item_price_total := item.price * ((x.2.quantity + 1 : Int) : ℚ) } := by
        rw [keyLookup_update_self m row.item_id
          (fun p => { p.2 with
                      quantity := p.2.quantity + 1
                      item_price_total := item.price * ((p.2.quantity + 1 : Int) : ℚ) }),
          hfound]
        rfl
      refine ⟨ih1, ?_, ?_, ?_⟩
      · intro k
        rw [ih2 k, map_fst_update]
        by_cases hk : k = row.item_id
        · subst hk
          have hc : 0 < countItem (row :: rest) row.item_id := by
            rw [hcc]; omega
          exact iff_of_true (Or.inl hk0mem) (Or.inr hc)
        · have hc : countItem (row :: rest) k = countItem rest k := by
            simp [countItem, List.countP_cons,
              beq_false_of_ne (fun hh : row.item_id = k => hk hh.symm)]
          rw [hc]
      · intro k hnok
        have hk : k ≠ row.item_id := by
          intro hh; rw [hh, hd] at hnok; exact Option.noConfusion hnok
        rw [ih3 k hnok, keyLookup_update_other _ _ _ hk]
      · intro k it hit
        by_cases hk : k = row.item_id
        · subst hk
          have hdit : d = it := by rw [hd] at hit; exact Option.some.inj hit
          subst hdit
          have hklm : keyLookup m row.item_id = some x.2 := by
            rw [keyLookup, hfound]; rfl
          rw [ih4 row.item_id d hit, hupd, hklm, hcc]
          simp only [Option.some.injEq, ItemQuantityTotalPrice.mk.injEq]
          refine ⟨trivial, trivial, by push_cast; ring, ?_⟩
          rw [if_neg (Nat.succ_ne_zero _)]
          by_cases h0 : countItem rest row.item_id = 0
          · rw [if_pos h0, h0, hpriced]
            push_cast
            ring
          · rw [if_neg h0]
            push_cast
            ring
        · have hc : countItem (row :: rest) k = countItem rest k := by
            simp [countItem, List.countP_cons,
              beq_false_of_ne (fun hh : row.item_id = k => hk hh.symm)]
          rw [ih4 k it hit, keyLookup_update_other _ _ _ hk, hc]
    -- a row of a fresh id: append a new entry
    · rename_i hnone
      have hk0nomem : row.item_id ∉ m.map Prod.fst := by
        rw [mem_map_fst_iff_keyLookup, keyLookup, hnone]
        simp
      have hnodup1 : (((m ++ [(row.item_id,
          (⟨item.name, item.price, 1, item.price⟩ :
            ItemQuantityTotalPrice))]).map Prod.fst)).Nodup := by
        rw [List.map_append]
        refine List.Nodup.append hnodup (List.nodup_singleton _) ?_
        intro a ha hb
        simp only [List.map_cons, List.map_nil, List.mem_singleton] at hb
        subst hb
        exact hk0nomem ha
      obtain ⟨ih1, ih2, ih3, ih4⟩ := ih _ m' h hnodup1
      refine ⟨ih1, ?_, ?_, ?_⟩
      · intro k
        rw [ih2 k, List.map_append]
        by_cases hk : k = row.item_id
        · subst hk
          have hc : 0 < countItem (row :: rest) row.item_id := by
            rw [hcc]; omega
          refine iff_of_true (Or.inl ?_) (Or.inr hc)
          exact List.mem_append.mpr (Or.inr (by simp))
        · have hc : countItem (row :: rest) k = countItem rest k := by
            simp [countItem, List.countP_cons,
              beq_false_of_ne (fun hh : row.item_id = k => hk hh.symm)]
          have hnk : ¬k ∈ ([(row.item_id,
              (⟨item.name, item.price, 1, item.price⟩ :
                ItemQuantityTotalPrice))].map Prod.fst) := by
            simp [hk]
          rw [hc]
          constructor
          · rintro (hmem | hcr)
            · rcases List.mem_append.mp hmem with hmm | hms
              · exact Or.inl hmm
              · exact absurd hms hnk
            · exact Or.inr hcr
          · rintro (hmm | hcr)
            · exact Or.inl (List.mem_append.mpr (Or.inl hmm))
            · exact Or.inr hcr
      · intro k hnok
        have hk : k ≠ row.item_id := by
          intro hh; rw [hh, hd] at hnok; exact Option.noConfusion hnok
        rw [ih3 k hnok, keyLookup_append_other _ _ _ hk]
      · intro k it hit
        by_cases hk : k = row.item_id
        · subst hk
          have hdit : d = it := by rw [hd] at hit; exact Option.some.inj hit
          subst hdit
          have hklm : keyLookup m row.item_id = none := by
            rw [keyLookup, hnone]; rfl
          rw [ih4 row.item_id d hit,
            keyLookup_append_self m row.item_id _ hnone, hklm, hcc]
          simp only
          rw [if_neg (Nat.succ_ne_zero _)]
          simp only [Option.some.injEq, ItemQuantityTotalPrice.mk.injEq]
          refine ⟨hnamed, hpriced, by push_cast; ring, ?_⟩
          by_cases h0 : countItem rest row.item_id = 0
          · rw [if_pos h0, h0, hpriced]
            push_cast
            ring
          · rw [if_neg h0]
            push_cast
            ring
        · have hc : countItem (row :: rest) k = countItem rest k := by
            simp [countItem, List.countP_cons,
              beq_false_of_ne (fun hh : row.item_id = k => hk hh.symm)]
          rw [ih4 k it hit, keyLookup_append_other _ _ _ hk, hc]

/-- With distinct keys, a member pair is what its key's lookup returns. -/
theorem keyLookup_of_mem_nodup (m : List (Nat × ItemQuantityTotalPrice))
    (hnodup : (m.map Prod.fst).Nodup) :
    ∀ p ∈ m, keyLookup m p.1 = some p.2 := by
  induction m with
  | nil => intro p hp; exact absurd hp (List.not_mem_nil p)
  | cons q rest ih =>
    intro p hp
    rcases List.mem_cons.mp hp with rfl | hp0
    · rw [keyLookup, List.find?_cons_of_pos _ (by simp)]
      rfl
    · have hq : q.1 ∉ rest.map Prod.fst := (List.nodup_cons.mp hnodup).1
      have hne : (q.1 == p.1) = false := by
        refine beq_false_of_ne fun hh => hq ?_
        rw [hh]
        exact List.mem_map.mpr ⟨p, hp0, rfl⟩
      rw [keyLookup, List.find?_cons_of_neg _ (by simp [hne])]
      exact ih (List.nodup_cons.mp hnodup).2 p hp0

/-- A successful run of the grouping loop from the empty accumulator yields
one entry per distinct item id of the rows, and each entry is built from
the catalog row: quantity is the number of that id's rows, the unit price
is the stored price, and the line total is their product. -/
theorem items_map_entries (db : DB) (rows : List LineRow)
    (m : List (Nat × ItemQuantityTotalPrice))
    (hloop : items_map_loop db rows [] = .ok m) :
    (m.map Prod.fst).Nodup ∧
    (∀ k, k ∈ m.map Prod.fst ↔ 0 < countItem rows k) ∧
    (∀ p ∈ m, ∃ it, db.items.find? (fun x => x.id == p.1) = some it ∧
      p.2 = ⟨it.name, it.price, (countItem rows p.1 : Int),
        it.price * ((countItem rows p.1 : Int) : ℚ)⟩) := by
  obtain ⟨sp1, sp2, sp3, sp4⟩ := items_map_loop_spec db rows [] m hloop (by simp)
  refine ⟨sp1, ?_, ?_⟩
  · intro k
    rw [sp2 k]
    simp
  · intro p hp
    have hkl := keyLookup_of_mem_nodup m sp1 p hp
    cases hit : db.items.find? (fun x => x.id == p.1) with
    | none =>
      have := sp3 p.1 hit
      rw [hkl] at this
      exact Option.noConfusion this
    | some it =>
      have h4 := sp4 p.1 it hit
      rw [hkl] at h4
      by_cases hcnt : countItem rows p.1 = 0
      · rw [if_pos hcnt] at h4
        exact Option.noConfusion h4
      · rw [if_neg hcnt] at h4
        exact ⟨it, rfl, Option.some.inj h4⟩

/-- Successful `get_order_service` decomposed: the grouping loop succeeded,
the returned items are its entries in order, and the total is their sum
(0 when there are no entries). -/
theorem get_order_service_ok_inv (db : DB) (id : Nat) (r : OrderReturned)
    (hr : get_order_service db id = .ok r) :
    ∃ m, items_map_loop db (get_order_items db id) [] = .ok m ∧
      r.items = m.map Prod.snd ∧
      r.total =
        (if m.length > 0 then (m.map (fun p => p.2.item_price_total)).sum else 0) := by
  rw [get_order_service] at hr
  split at hr
  · exact Except.noConfusion hr
  rename_i orow ho
  split at hr
  · exact Except.noConfusion hr
  rename_i customer hcust
  split at hr
  · exact Except.noConfusion hr
  rename_i m hloop
  injection hr with hr0
  subst hr0
  exact ⟨m, hloop, rfl, rfl⟩

/-- Claim C6: a successful `get` groups the order's per-unit rows by item
id into entries with pairwise distinct ids — one single entry per item that
occurs in the rows, none for items that do not — and each entry's quantity
is the total number of that item's rows. -/
theorem C6_get_groups_duplicate_items (db : DB) (id : Nat) (r : OrderReturned)
    (hr : get_order_service db id = .ok r) :
    ∃ m : List (Nat × ItemQuantityTotalPrice), r.items = m.map Prod.snd ∧
      (m.map Prod.fst).Nodup ∧
      (∀ k, k ∈ m.map Prod.fst ↔ 0 < countItem (get_order_items db id) k) ∧
      (∀ p ∈ m, p.2.quantity = (countItem (get_order_items db id) p.1 : Int)) := by
  obtain ⟨m, hloop, hitems, htotal⟩ := get_order_service_ok_inv db id r hr
  obtain ⟨e1, e2, e3⟩ := items_map_entries db _ m hloop
  refine ⟨m, hitems, e1, e2, ?_⟩
  intro p hp
  obtain ⟨it, hit, hp2⟩ := e3 p hp
  rw [hp2]

/-- Claim C7: a successful `get` prices each grouped entry from the current
catalog row of its item id — quantity is the number of that item's rows,
the line total is the stored price times that quantity — and the reported
order total is the sum of the entries' line totals. -/
theorem C7_get_recomputes_totals (db : DB) (id : Nat) (r : OrderReturned)
    (hr : get_order_service db id = .ok r) :
    ∃ m : List (Nat × ItemQuantityTotalPrice), r.items = m.map Prod.snd ∧
      (∀ p ∈ m, ∃ it, db.items.find? (fun x => x.id == p.1) = some it ∧
        p.2.item_price = it.price ∧
        p.2.quantity = (countItem (get_order_items db id) p.1 : Int) ∧
        p.2.item_price_total = it.price * (p.2.quantity : ℚ)) ∧
      r.total = (r.items.map (fun e => e.item_price_total)).sum := by
  obtain ⟨m, hloop, hitems, htotal⟩ := get_order_service_ok_inv db id r hr
  obtain ⟨e1, e2, e3⟩ := items_map_entries db _ m hloop
  refine ⟨m, hitems, ?_, ?_⟩
  · intro p hp
    obtain ⟨it, hit, hp2⟩ := e3 p hp
    refine ⟨it, hit, ?_, ?_, ?_⟩ <;> rw [hp2]
  · rw [htotal, hitems, List.map_map]
    by_cases hm : m.length > 0
    · rw [if_pos hm]
      rfl
    · rw [if_neg hm]
      have hm0 : m = [] := List.length_eq_zero.mp (by omega)
      subst hm0
      simp

/-- A stored order with three duplicate `Widget` unit rows. -/
def dbDup : DB :=
  { customers := [⟨1, "Alice", "123-456-7890"⟩]
    items := [⟨1, "Widget", 5 / 2⟩]
    orders := [⟨1, 5, 1, none⟩]
    item_list := [⟨1, 1⟩, ⟨1, 1⟩, ⟨1, 1⟩]
    nextCustomerId := 2
    nextOrderId := 2 }

/-- The aggregate `get` returns for order 1 of `dbDup`. -/
def rDup : OrderReturned :=
  match get_order_service dbDup 1 with
  | .ok r => r
  | .error _ => ⟨0, 0, "", "", none, [], 0⟩

/-- The aggregate `get` returns for order 1 of `dbOneLine`. -/
def rOne : OrderReturned :=
  match get_order_service dbOneLine 1 with
  | .ok r => r
  | .error _ => ⟨0, 0, "", "", none, [], 0⟩

/-- Witness for C2: the unknown name `Gadget` makes the update fail with
the previous single line row intact. -/
theorem C2_unknown_name_update_preserves_lines_witness :
    ∃ e db', update_order dbOneLine 1 ⟨some [⟨"Gadget", 1⟩], none⟩ 7 =
      (.error e, db') ∧ db'.item_list = dbOneLine.item_list :=
  C2_unknown_name_update_preserves_lines dbOneLine 1 [⟨"Gadget", 1⟩] none 7
    (by decide) ⟨⟨"Gadget", 1⟩, by decide, by decide⟩

/-- Witness for C5: a create whose raw pair matches the stored row exactly
adds no customer and references customer 1. -/
theorem C5_exact_match_reuses_customer_witness :
    (create_order dbWidget ⟨"Alice", "123-456-7890", [], none⟩ 9).2.customers =
      dbWidget.customers ∧
    (create_order dbWidget ⟨"Alice", "123-456-7890", [], none⟩ 9).2.orders =
      dbWidget.orders ++ [⟨dbWidget.nextOrderId, 9, 1, none⟩] :=
  C5_exact_match_reuses_customer dbWidget ⟨"Alice", "123-456-7890", [], none⟩ 9
    ⟨1, "Alice", "123-456-7890"⟩ (by decide)

/-- Witness for C6: grouping of the three duplicate `Widget` rows. -/
theorem C6_get_groups_duplicate_items_witness :
    ∃ m : List (Nat × ItemQuantityTotalPrice),
      rDup.items = m.map Prod.snd ∧
      (m.map Prod.fst).Nodup ∧
      (∀ k, k ∈ m.map Prod.fst ↔ 0 < countItem (get_order_items dbDup 1) k) ∧
      (∀ p ∈ m, p.2.quantity = (countItem (get_order_items dbDup 1) p.1 : Int)) :=
  C6_get_groups_duplicate_items dbDup 1 rDup rfl

/-- Witness for C7: pricing of the grouped `Widget` entry. -/
theorem C7_get_recomputes_totals_witness :
    ∃ m : List (Nat × ItemQuantityTotalPrice),
      rDup.items = m.map Prod.snd ∧
      (∀ p ∈ m, ∃ it, dbDup.items.find? (fun x => x.id == p.1) = some it ∧
        p.2.item_price = it.price ∧
        p.2.quantity = (countItem (get_order_items dbDup 1) p.1 : Int) ∧
        p.2.item_price_total = it.price * (p.2.quantity : ℚ)) ∧
      rDup.total = (rDup.items.map (fun e => e.item_price_total)).sum :=
  C7_get_recomputes_totals dbDup 1 rDup rfl

/-- Witness for C9: a notes-only update of order 1 of `dbOneLine`. -/
theorem C9_notes_only_update_witness :
    update_order dbOneLine 1 ⟨none, some "call first"⟩ 9 =
      (.ok (.updated ⟨1, 9, rOne.name, rOne.phone, some "call first",
        rOne.items, rOne.total⟩),
       { dbOneLine with orders := dbOneLine.orders.map (fun o =>
           if o.id == 1 then { o with timestamp := 9, notes := some "call first" }
           else o) }) :=
  C9_notes_only_update dbOneLine 1 "call first" 9 rOne rfl (by decide)

/-- Witness for C10: an empty-items create against `dbWidget` for a fresh
customer `Bob`. -/
theorem C10_empty_items_create_witness :
    ∃ cust_id,
      (create_order dbWidget ⟨"Bob", "5551234567", [], none⟩ 11).1 =
        .ok ⟨dbWidget.nextOrderId, 11, [], 0⟩ ∧
      (create_order dbWidget ⟨"Bob", "5551234567", [], none⟩ 11).2.orders =
        dbWidget.orders ++ [⟨dbWidget.nextOrderId, 11, cust_id, none⟩] ∧
      (create_order dbWidget ⟨"Bob", "5551234567", [], none⟩ 11).2.item_list =
        dbWidget.item_list :=
  C10_empty_items_create dbWidget "Bob" "5551234567" none 11 (by decide) (by decide)
    (by decide) (by decide) (by decide)
